import Mathlib

/-!
Shallow embedding of the monopoly session coordinator (Go sources:
game/engine.go, game/lobby.go, game/models.go, the SQLite store layer,
ws/room.go and ws/manager.go), together with proofs checking the
natural-language specification against it.

The store is modelled per session: a `StoreState` holds the `games` row for
one session id (if present) and the slice of `game_players` rows for that
session.  `GetGamePlayers` sorts rows by `player_order` (the SQL `ORDER BY
gp.player_order`); usernames are materialized on each row, mirroring the SQL
join with the `users` table.  Go `int64`/`int` become `Int`.
-/

namespace Monopoly

/-- Status constants from game/models.go. -/
def StatusWaiting : String := "waiting"

/-- Status constant for a started game (game/models.go). -/
def StatusInProgress : String := "in_progress"

/-- Status constant for a finished game (game/models.go). -/
def StatusFinished : String := "finished"

/-- One row of the `games` table restricted to the fields the engine reads
(store.Game; `created_at` is never read by the engine). -/
structure Game where
  id : Int
  status : String
  maxPlayers : Int
deriving DecidableEq, Repr

/-- One row of the `game_players` table for the session under consideration
(store.GamePlayer with the username already joined in; the `game_id` column is
implicit, every row belongs to the one modelled session). -/
structure GamePlayer where
  userID : Int
  username : String
  playerOrder : Int
  isReady : Bool
  isCurrentTurn : Bool
deriving DecidableEq, Repr

/-- game.Player (game/models.go): the view of one participant assembled by
`GetGameState`. -/
structure Player where
  userID : Int
  username : String
  order : Int
  isReady : Bool
  isCurrentTurn : Bool
deriving DecidableEq, Repr

/-- game.GameState (game/models.go). -/
structure GameState where
  id : Int
  status : String
  players : List Player
  currentPlayerID : Int
  maxPlayers : Int
deriving DecidableEq, Repr

/-- The payload of a game.Event, one variant per payload struct in
game/models.go. -/
inductive Payload where
  | playerJoined (player : Player)
  | playerReady (userID : Int) (isReady : Bool)
  | gameStarted (currentPlayerID : Int)
  | turnChanged (previousPlayerID : Int) (currentPlayerID : Int)
deriving DecidableEq, Repr

/-- game.Event (game/models.go). -/
structure Event where
  type : String
  gameID : Int
  payload : Payload
deriving DecidableEq, Repr

/-- The error values of game/engine.go, plus `storeFault` for a failing
store call (a wrapped database error, used by the fault-injected variants). -/
inductive EngineError where
  | gameFull
  | gameStarted
  | notYourTurn
  | gameNotStarted
  | gameNotFound
  | alreadyInGame
  | userNotInGame
  | storeFault
deriving DecidableEq, Repr

/-- Result of an engine call: a value, a returned error, or a Go runtime
panic (`crash`, reachable in `EndTurn` only through a zero modulus). -/
inductive EResult (α : Type) where
  | ok (a : α)
  | fail (e : EngineError)
  | crash
deriving DecidableEq, Repr

/-- The store slice for one session id: the `games` row (none when the id is
absent) and its `game_players` rows. -/
structure StoreState where
  game : Option Game
  rows : List GamePlayer
deriving DecidableEq, Repr

/-- Comparison of two `game_players` rows by their `player_order` column. -/
def orderLE (a b : GamePlayer) : Prop := a.playerOrder ≤ b.playerOrder

instance : DecidableRel orderLE := fun a b => Int.decLe a.playerOrder b.playerOrder

instance : IsTotal GamePlayer orderLE := ⟨fun a b => Int.le_total a.playerOrder b.playerOrder⟩

instance : IsTrans GamePlayer orderLE := ⟨fun _ _ _ h1 h2 => le_trans h1 h2⟩

/-- Sort the `game_players` rows by `player_order`: the `ORDER BY
gp.player_order` clause of SQLiteStore.GetGamePlayers. -/
def sortByOrder (rows : List GamePlayer) : List GamePlayer :=
  List.insertionSort orderLE rows

namespace Store

/-- SQLiteStore.CreateGame: inserts a `games` row with status `waiting` and
the given max_players value, returning the new row. -/
def CreateGame (maxPlayers : Int) (gameID : Int) : Game :=
  { id := gameID, status := StatusWaiting, maxPlayers := maxPlayers }

/-- SQLiteStore.JoinGame: inserts a `game_players` row; `is_ready` and
`is_current_turn` take their schema defaults 0. -/
def JoinGame (userID : Int) (username : String) (playerOrder : Int)
    (s : StoreState) : StoreState :=
  { s with rows := s.rows ++
      [{ userID := userID, username := username, playerOrder := playerOrder,
         isReady := false, isCurrentTurn := false }] }

/-- SQLiteStore.UpdatePlayerReady: `UPDATE game_players SET is_ready = ?
WHERE game_id = ? AND user_id = ?`. -/
def UpdatePlayerReady (userID : Int) (isReady : Bool) (s : StoreState) :
    StoreState :=
  { s with rows := s.rows.map fun p =>
      if p.userID == userID then { p with isReady := isReady } else p }

/-- SQLiteStore.UpdateGameStatus: `UPDATE games SET status = ? WHERE id = ?`. -/
def UpdateGameStatus (status : String) (s : StoreState) : StoreState :=
  { s with game := s.game.map fun g => { g with status := status } }

/-- First half of SQLiteStore.UpdateCurrentTurn: `UPDATE game_players SET
is_current_turn = 0 WHERE game_id = ?`. -/
def clearTurns (rows : List GamePlayer) : List GamePlayer :=
  rows.map fun p => { p with isCurrentTurn := false }

/-- Second half of SQLiteStore.UpdateCurrentTurn: `UPDATE game_players SET
is_current_turn = 1 WHERE game_id = ? AND user_id = ?`. -/
def setTurnTo (userID : Int) (rows : List GamePlayer) : List GamePlayer :=
  rows.map fun p =>
    if p.userID == userID then { p with isCurrentTurn := true } else p

/-- SQLiteStore.UpdateCurrentTurn: in one transaction, clear every turn flag
of the session, then set the flag of the given user. -/
def UpdateCurrentTurn (userID : Int) (s : StoreState) : StoreState :=
  { s with rows := setTurnTo userID (clearTurns s.rows) }

end Store

/-- The loop of Engine.GetGameState that derives CurrentPlayerID: starting
from the zero value, every player carrying the turn flag overwrites the
accumulator with its user id. -/
def currentPlayerID (players : List Player) : Int :=
  players.foldl (fun acc p => if p.isCurrentTurn then p.userID else acc) 0

/-- Conversion from a store row to a game.Player, as written in the loop of
Engine.GetGameState (engine.go lines 47 to 54). -/
def toPlayer (p : GamePlayer) : Player :=
  { userID := p.userID, username := p.username, order := p.playerOrder,
    isReady := p.isReady, isCurrentTurn := p.isCurrentTurn }

/-- The GameState assembled by Engine.GetGameState from a `games` row and the
(order-sorted) `game_players` rows. -/
def mkGameState (game : Game) (rows : List GamePlayer) : GameState :=
  let players := (sortByOrder rows).map toPlayer
  { id := game.id, status := game.status, players := players,
    currentPlayerID := currentPlayerID players, maxPlayers := game.maxPlayers }

/-- Engine.GetGameState (engine.go lines 27 to 67). -/
def GetGameState (gameID : Int) (s : StoreState) : EResult GameState :=
  if gameID ≤ 0 then .fail .gameNotFound
  else
    match s.game with
    | none => .fail .gameNotFound
    | some game => .ok (mkGameState game s.rows)

/-- Engine.JoinGame (engine.go lines 69 to 109). -/
def JoinGame (gameID userID : Int) (username : String) (s : StoreState) :
    EResult (Event × StoreState) :=
  match GetGameState gameID s with
  | .fail e => .fail e
  | .crash => .crash
  | .ok state =>
    if state.status ≠ StatusWaiting then .fail .gameStarted
    else if (state.players.length : Int) ≥ state.maxPlayers then .fail .gameFull
    else if state.players.any (fun p => p.userID == userID) then
      .fail .alreadyInGame
    else
      let playerOrder : Int := state.players.length
      let s1 := Store.JoinGame userID username playerOrder s
      let newPlayer : Player :=
        { userID := userID, username := username, order := playerOrder,
          isReady := false, isCurrentTurn := false }
      .ok ({ type := "player_joined", gameID := gameID,
             payload := .playerJoined newPlayer }, s1)

/-- Engine.SetReady (engine.go lines 111 to 182). -/
def SetReady (gameID userID : Int) (isReady : Bool) (s : StoreState) :
    EResult (Event × StoreState) :=
  match GetGameState gameID s with
  | .fail e => .fail e
  | .crash => .crash
  | .ok state =>
    if state.status ≠ StatusWaiting then .fail .gameStarted
    else if ¬ state.players.any (fun p => p.userID == userID) then
      .fail .userNotInGame
    else
      let s1 := Store.UpdatePlayerReady userID isReady s
      match GetGameState gameID s1 with
      | .fail e => .fail e
      | .crash => .crash
      | .ok state1 =>
        if 2 ≤ state1.players.length ∧ state1.players.all (fun p => p.isReady)
        then
          let s2 := Store.UpdateGameStatus StatusInProgress s1
          match state1.players with
          | [] => .crash
          | firstPlayer :: _ =>
            let s3 := Store.UpdateCurrentTurn firstPlayer.userID s2
            .ok ({ type := "game_started", gameID := gameID,
                   payload := .gameStarted firstPlayer.userID }, s3)
        else
          .ok ({ type := "player_ready", gameID := gameID,
                 payload := .playerReady userID isReady }, s1)

/-- The linear search of Engine.EndTurn for the index of the caller in the
player list (first match, `none` standing for the Go value -1). -/
def findCurrentIdx (userID : Int) : List Player → Option Nat
  | [] => none
  | p :: ps =>
    if p.userID == userID then some 0
    else (findCurrentIdx userID ps).map (· + 1)

/-- Engine.EndTurn (engine.go lines 184 to 222).  The `crash` branch is the
Go runtime panic from `(currentIdx + 1) % len(state.Players)` when the player
list is empty. -/
def EndTurn (gameID userID : Int) (s : StoreState) :
    EResult (Event × StoreState) :=
  match GetGameState gameID s with
  | .fail e => .fail e
  | .crash => .crash
  | .ok state =>
    if state.status ≠ StatusInProgress then .fail .gameNotStarted
    else if state.currentPlayerID ≠ userID then .fail .notYourTurn
    else
      let currentIdx : Int :=
        match findCurrentIdx userID state.players with
        | some i => (i : Int)
        | none => -1
      match state.players with
      | [] => .crash
      | p0 :: rest =>
        let nextIdx : Nat :=
          ((currentIdx + 1) % (((p0 :: rest).length : Nat) : Int)).toNat
        let nextPlayer : Player := (p0 :: rest).getD nextIdx p0
        let s1 := Store.UpdateCurrentTurn nextPlayer.userID s
        .ok ({ type := "turn_changed", gameID := gameID,
               payload := .turnChanged userID nextPlayer.userID }, s1)

/-- K consecutive advances, each issued by the player currently holding the
turn (the state is re-read before each call, as a caller of the engine
would). -/
def advanceK (gameID : Int) : Nat → StoreState → EResult StoreState
  | 0, s => .ok s
  | k + 1, s =>
    match GetGameState gameID s with
    | .fail e => .fail e
    | .crash => .crash
    | .ok state =>
      match EndTurn gameID state.currentPlayerID s with
      | .ok (_, s1) => advanceK gameID k s1
      | .fail e => .fail e
      | .crash => .crash

/-- Lobby.CreateGame (lobby.go lines 15 to 29): clamp the requested maximum
into the 2 to 8 range, then insert the `games` row. -/
def CreateGame (maxPlayers : Int) (gameID : Int) : Game :=
  let m1 : Int := if maxPlayers < 2 then 2 else maxPlayers
  let m2 : Int := if m1 > 8 then 8 else m1
  Store.CreateGame m2 gameID

/-! Room (ws/room.go).  Clients are identified abstractly (the Go map is
keyed by the `*Client` pointer); `closeCount` records how many times the
send channel of a client has been closed.  Each operation below is the body
of the corresponding Go method with the room mutex held, so two racing calls
execute as the two orders of the atomic operations. -/

/-- State of one Room: the set of attached clients and, per client, the
number of times its send channel has been closed. -/
structure RoomState where
  clients : Finset Nat
  closeCount : Nat → Nat

/-- Room.RemoveClient (ws/room.go lines 36 to 43): under the room mutex, if
the client is present, delete it from the set and close its send channel;
otherwise do nothing. -/
def RemoveClient (c : Nat) (r : RoomState) : RoomState :=
  if c ∈ r.clients then
    { clients := r.clients.erase c,
      closeCount := fun x => if x = c then r.closeCount x + 1 else r.closeCount x }
  else r

/-! The `ready` branch of Manager.handleMessage (ws/manager.go lines 137 to
157). -/

/-- A JSON value found under the `isReady` key: either a boolean or some
non-boolean value (the type assertion `readyPayload.(bool)` fails on it). -/
inductive JsonValue where
  | bool (b : Bool)
  | other
deriving DecidableEq, Repr

/-- What the `ready` branch of Manager.handleMessage does next. -/
inductive ReadyAction where
  | callSetReady (isReady : Bool)
  | replyError (message : String)
deriving DecidableEq, Repr

/-- The `ready` branch of Manager.handleMessage: `isReady` starts out true;
an absent key leaves it true; a boolean key overrides it; a present
non-boolean key makes the handler send a private error and return without
calling the engine. -/
def handleReadyPayload (field : Option JsonValue) : ReadyAction :=
  match field with
  | none => .callSetReady true
  | some (.bool b) => .callSetReady b
  | some .other => .replyError "Invalid isReady value"

/-! Engine.SetReady split at its suspension points, for reasoning about
interleavings.  The Engine holds no lock (the struct of engine.go lines 19
to 21 has only the store field), so between the two phases of one call the
store may be mutated by a concurrent call for the same session. -/

/-- Phase one of Engine.SetReady (engine.go lines 112 to 135): read the
state, validate status and membership, and commit the ready flag. -/
def setReadyPhase1 (gameID userID : Int) (isReady : Bool) (s : StoreState) :
    Option EngineError × StoreState :=
  match GetGameState gameID s with
  | .fail e => (some e, s)
  | .crash => (some .gameNotFound, s)
  | .ok state =>
    if state.status ≠ StatusWaiting then (some .gameStarted, s)
    else if ¬ state.players.any (fun p => p.userID == userID) then
      (some .userNotInGame, s)
    else (none, Store.UpdatePlayerReady userID isReady s)

/-- Phase two of Engine.SetReady (engine.go lines 137 to 182): re-read the
state and either perform the start transition or report the readiness
change.  Note that this phase does not re-check the session status. -/
def setReadyPhase2 (gameID userID : Int) (isReady : Bool) (s : StoreState) :
    EResult (Event × StoreState) :=
  match GetGameState gameID s with
  | .fail e => .fail e
  | .crash => .crash
  | .ok state1 =>
    if 2 ≤ state1.players.length ∧ state1.players.all (fun p => p.isReady)
    then
      let s2 := Store.UpdateGameStatus StatusInProgress s
      match state1.players with
      | [] => .crash
      | firstPlayer :: _ =>
        let s3 := Store.UpdateCurrentTurn firstPlayer.userID s2
        .ok ({ type := "game_started", gameID := gameID,
               payload := .gameStarted firstPlayer.userID }, s3)
    else
      .ok ({ type := "player_ready", gameID := gameID,
             payload := .playerReady userID isReady }, s)

/-! Fault-injected variants of the engine operations.  Every store call may
fail with a wrapped database error (`storeFault`); a fault schedule lists,
call by call, whether the next store call fails.  A failing call leaves the
database unchanged (a failed statement, or a rolled-back transaction); a
fault after some calls have committed models exactly the partial-failure
executions of the Go code, whose `if err != nil` returns abandon the rest of
the operation. -/

/-- A store together with the fault schedule of the pending store calls. -/
structure FStore where
  s : StoreState
  faults : List Bool
deriving DecidableEq, Repr

/-- Consume the fault flag of the next store call (an exhausted schedule
means no further faults). -/
def nextFault (fs : FStore) : Bool × FStore :=
  match fs.faults with
  | [] => (false, fs)
  | b :: rest => (b, { fs with faults := rest })

/-- Engine.GetGameState under fault injection: its two store calls (GetGame,
GetGamePlayers) each consume one schedule entry. -/
def GetGameStateF (gameID : Int) (fs : FStore) : EResult GameState × FStore :=
  if gameID ≤ 0 then (.fail .gameNotFound, fs)
  else
    let t1 := nextFault fs
    if t1.1 then (.fail .storeFault, t1.2)
    else
      match t1.2.s.game with
      | none => (.fail .gameNotFound, t1.2)
      | some game =>
        let t2 := nextFault t1.2
        if t2.1 then (.fail .storeFault, t2.2)
        else (.ok (mkGameState game t2.2.s.rows), t2.2)

/-- store.JoinGame under fault injection. -/
def JoinGameStoreF (userID : Int) (username : String) (playerOrder : Int)
    (fs : FStore) : Option EngineError × FStore :=
  let t := nextFault fs
  if t.1 then (some .storeFault, t.2)
  else (none, { t.2 with s := Store.JoinGame userID username playerOrder t.2.s })

/-- store.UpdatePlayerReady under fault injection. -/
def UpdatePlayerReadyF (userID : Int) (isReady : Bool) (fs : FStore) :
    Option EngineError × FStore :=
  let t := nextFault fs
  if t.1 then (some .storeFault, t.2)
  else (none, { t.2 with s := Store.UpdatePlayerReady userID isReady t.2.s })

/-- store.UpdateGameStatus under fault injection. -/
def UpdateGameStatusF (status : String) (fs : FStore) :
    Option EngineError × FStore :=
  let t := nextFault fs
  if t.1 then (some .storeFault, t.2)
  else (none, { t.2 with s := Store.UpdateGameStatus status t.2.s })

/-- store.UpdateCurrentTurn under fault injection (the transaction either
commits whole or rolls back whole). -/
def UpdateCurrentTurnF (userID : Int) (fs : FStore) :
    Option EngineError × FStore :=
  let t := nextFault fs
  if t.1 then (some .storeFault, t.2)
  else (none, { t.2 with s := Store.UpdateCurrentTurn userID t.2.s })

/-- Engine.JoinGame under fault injection. -/
def JoinGameF (gameID userID : Int) (username : String) (fs : FStore) :
    EResult Event × FStore :=
  match GetGameStateF gameID fs with
  | (.fail e, fs1) => (.fail e, fs1)
  | (.crash, fs1) => (.crash, fs1)
  | (.ok state, fs1) =>
    if state.status ≠ StatusWaiting then (.fail .gameStarted, fs1)
    else if (state.players.length : Int) ≥ state.maxPlayers then
      (.fail .gameFull, fs1)
    else if state.players.any (fun p => p.userID == userID) then
      (.fail .alreadyInGame, fs1)
    else
      let playerOrder : Int := state.players.length
      match JoinGameStoreF userID username playerOrder fs1 with
      | (some e, fs2) => (.fail e, fs2)
      | (none, fs2) =>
        (.ok { type := "player_joined", gameID := gameID,
               payload := .playerJoined
                 { userID := userID, username := username, order := playerOrder,
                   isReady := false, isCurrentTurn := false } }, fs2)

/-- Engine.SetReady under fault injection. -/
def SetReadyF (gameID userID : Int) (isReady : Bool) (fs : FStore) :
    EResult Event × FStore :=
  match GetGameStateF gameID fs with
  | (.fail e, fs1) => (.fail e, fs1)
  | (.crash, fs1) => (.crash, fs1)
  | (.ok state, fs1) =>
    if state.status ≠ StatusWaiting then (.fail .gameStarted, fs1)
    else if ¬ state.players.any (fun p => p.userID == userID) then
      (.fail .userNotInGame, fs1)
    else
      match UpdatePlayerReadyF userID isReady fs1 with
      | (some e, fs2) => (.fail e, fs2)
      | (none, fs2) =>
        match GetGameStateF gameID fs2 with
        | (.fail e, fs3) => (.fail e, fs3)
        | (.crash, fs3) => (.crash, fs3)
        | (.ok state1, fs3) =>
          if 2 ≤ state1.players.length ∧
              state1.players.all (fun p => p.isReady) then
            match UpdateGameStatusF StatusInProgress fs3 with
            | (some e, fs4) => (.fail e, fs4)
            | (none, fs4) =>
              match state1.players with
              | [] => (.crash, fs4)
              | firstPlayer :: _ =>
                match UpdateCurrentTurnF firstPlayer.userID fs4 with
                | (some e, fs5) => (.fail e, fs5)
                | (none, fs5) =>
                  (.ok { type := "game_started", gameID := gameID,
                         payload := .gameStarted firstPlayer.userID }, fs5)
          else
            (.ok { type := "player_ready", gameID := gameID,
                   payload := .playerReady userID isReady }, fs3)

/-- Engine.EndTurn under fault injection. -/
def EndTurnF (gameID userID : Int) (fs : FStore) : EResult Event × FStore :=
  match GetGameStateF gameID fs with
  | (.fail e, fs1) => (.fail e, fs1)
  | (.crash, fs1) => (.crash, fs1)
  | (.ok state, fs1) =>
    if state.status ≠ StatusInProgress then (.fail .gameNotStarted, fs1)
    else if state.currentPlayerID ≠ userID then (.fail .notYourTurn, fs1)
    else
      let currentIdx : Int :=
        match findCurrentIdx userID state.players with
        | some i => (i : Int)
        | none => -1
      match state.players with
      | [] => (.crash, fs1)
      | p0 :: rest =>
        let nextIdx : Nat :=
          ((currentIdx + 1) % (((p0 :: rest).length : Nat) : Int)).toNat
        let nextPlayer : Player := (p0 :: rest).getD nextIdx p0
        match UpdateCurrentTurnF nextPlayer.userID fs1 with
        | (some e, fs2) => (.fail e, fs2)
        | (none, fs2) =>
          (.ok { type := "turn_changed", gameID := gameID,
                 payload := .turnChanged userID nextPlayer.userID }, fs2)

/-! Helper definitions and lemmas about the embedding. -/

/-- Rows of the session after the turn flag has been reassigned to user `u`:
the net effect of Store.UpdateCurrentTurn on the row list. -/
def withTurn (u : Int) (rows : List GamePlayer) : List GamePlayer :=
  rows.map fun p => { p with isCurrentTurn := p.userID == u }

/-- Number of rows of the session carrying the turn flag. -/
def turnCount (rows : List GamePlayer) : Nat :=
  rows.countP (·.isCurrentTurn)

/-- User id stored at position `j` of a row list (0 when out of range; rows
of real sessions never carry user id 0). -/
def uidAt (rows : List GamePlayer) (j : Nat) : Int :=
  (rows.map (·.userID)).getD j 0

theorem updateCurrentTurn_rows (u : Int) (s : StoreState) :
    (Store.UpdateCurrentTurn u s).rows = withTurn u s.rows := by
  simp only [Store.UpdateCurrentTurn, Store.setTurnTo, Store.clearTurns,
    withTurn, List.map_map]
  congr 1
  funext p
  by_cases h : p.userID == u <;> simp [h, Function.comp]

theorem withTurn_withTurn (u v : Int) (rows : List GamePlayer) :
    withTurn u (withTurn v rows) = withTurn u rows := by
  simp only [withTurn, List.map_map]
  rfl

theorem withTurn_uid (u : Int) (rows : List GamePlayer) :
    (withTurn u rows).map (·.userID) = rows.map (·.userID) := by
  simp only [withTurn, List.map_map]
  rfl

theorem withTurn_length (u : Int) (rows : List GamePlayer) :
    (withTurn u rows).length = rows.length := by
  simp [withTurn]

theorem updatePlayerReady_game (u : Int) (b : Bool) (s : StoreState) :
    (Store.UpdatePlayerReady u b s).game = s.game := rfl

theorem updateCurrentTurn_game (u : Int) (s : StoreState) :
    (Store.UpdateCurrentTurn u s).game = s.game := rfl

theorem updateGameStatus_rows (st : String) (s : StoreState) :
    (Store.UpdateGameStatus st s).rows = s.rows := rfl

theorem updatePlayerReady_uid (u : Int) (b : Bool) (s : StoreState) :
    (Store.UpdatePlayerReady u b s).rows.map (·.userID) = s.rows.map (·.userID) := by
  simp only [Store.UpdatePlayerReady, List.map_map]
  congr 1
  funext p
  by_cases h : p.userID == u <;> simp [h, Function.comp]

theorem updatePlayerReady_turnCount (u : Int) (b : Bool) (s : StoreState) :
    turnCount (Store.UpdatePlayerReady u b s).rows = turnCount s.rows := by
  simp only [turnCount, Store.UpdatePlayerReady, List.countP_map]
  congr 1
  funext p
  by_cases h : p.userID == u <;> simp [h, Function.comp]

theorem sortByOrder_sorted (rows : List GamePlayer) :
    List.Sorted orderLE (sortByOrder rows) :=
  List.sorted_insertionSort orderLE rows

theorem sortByOrder_eq_self {rows : List GamePlayer}
    (h : List.Sorted orderLE rows) : sortByOrder rows = rows :=
  h.insertionSort_eq

theorem mem_sortByOrder {x : GamePlayer} {rows : List GamePlayer} :
    x ∈ sortByOrder rows ↔ x ∈ rows :=
  (List.perm_insertionSort orderLE rows).mem_iff

theorem sorted_withTurn {rows : List GamePlayer}
    (h : List.Sorted orderLE rows) (u : Int) :
    List.Sorted orderLE (withTurn u rows) := by
  unfold withTurn
  rw [List.Sorted, List.pairwise_map]
  exact h

theorem getGameState_eq_ok {gameID : Int} {s : StoreState} {st : GameState} :
    GetGameState gameID s = .ok st ↔
      ¬ gameID ≤ 0 ∧ ∃ g, s.game = some g ∧ st = mkGameState g s.rows := by
  unfold GetGameState
  split
  · simp_all
  · match hg : s.game with
    | none => simp
    | some g => simp_all [eq_comm]

theorem currentPlayerID_foldl_cases (ps : List Player) : ∀ acc : Int,
    ps.foldl (fun acc p => if p.isCurrentTurn then p.userID else acc) acc = acc ∨
    ∃ p ∈ ps, p.isCurrentTurn ∧
      p.userID = ps.foldl (fun acc p => if p.isCurrentTurn then p.userID else acc) acc := by
  induction ps with
  | nil => intro acc; exact .inl rfl
  | cons p ps ih =>
    intro acc
    simp only [List.foldl_cons]
    by_cases h : p.isCurrentTurn
    · rw [if_pos h]
      rcases ih p.userID with heq | ⟨q, hq, hqt, hqe⟩
      · exact .inr ⟨p, List.mem_cons_self p ps, h, heq.symm⟩
      · exact .inr ⟨q, List.mem_cons_of_mem p hq, hqt, hqe⟩
    · rw [if_neg h]
      rcases ih acc with heq | ⟨q, hq, hqt, hqe⟩
      · exact .inl heq
      · exact .inr ⟨q, List.mem_cons_of_mem p hq, hqt, hqe⟩

theorem currentPlayerID_mem {ps : List Player} (h : currentPlayerID ps ≠ 0) :
    ∃ p ∈ ps, p.isCurrentTurn ∧ p.userID = currentPlayerID ps := by
  rcases currentPlayerID_foldl_cases ps 0 with heq | hex
  · exact absurd heq h
  · exact hex

theorem currentPlayerID_withTurn_aux (u : Int) (rows : List GamePlayer) :
    ∀ acc : Int,
      ((withTurn u rows).map toPlayer).foldl
          (fun acc p => if p.isCurrentTurn then p.userID else acc) acc =
        if (rows.any fun p => p.userID == u) = true then u else acc := by
  induction rows with
  | nil => intro acc; simp [withTurn]
  | cons r rows ih =>
    intro acc
    by_cases h : (r.userID == u) = true
    · have hu : r.userID = u := by simpa using h
      simp only [withTurn, List.map_cons, List.foldl_cons, List.any_cons, h,
        Bool.true_or, if_true, toPlayer] at *
      rw [ih]
      split <;> simp [hu]
    · simp only [withTurn, List.map_cons, List.foldl_cons, List.any_cons, h,
        Bool.false_or, toPlayer] at *
      rw [ih]
      simp [h]

theorem currentPlayerID_withTurn {u : Int} {rows : List GamePlayer}
    (h : (rows.any fun p => p.userID == u) = true) :
    currentPlayerID ((withTurn u rows).map toPlayer) = u := by
  unfold currentPlayerID
  rw [currentPlayerID_withTurn_aux, if_pos h]

theorem findCurrentIdx_isSome {u : Int} :
    ∀ {ps : List Player}, (∃ p ∈ ps, p.userID = u) →
      ∃ i, findCurrentIdx u ps = some i := by
  intro ps
  induction ps with
  | nil => rintro ⟨p, hp, _⟩; cases hp
  | cons p ps ih =>
    rintro ⟨q, hq, hqu⟩
    by_cases h : (p.userID == u) = true
    · exact ⟨0, by simp [findCurrentIdx, h]⟩
    · rcases List.mem_cons.mp hq with rfl | hq2
      · exact absurd (by simp [hqu]) h
      · rcases ih ⟨q, hq2, hqu⟩ with ⟨i, hi⟩
        exact ⟨i + 1, by simp [findCurrentIdx, h, hi]⟩

theorem findCurrentIdx_at :
    ∀ (ps : List Player), (ps.map (·.userID)).Nodup →
      ∀ i (hi : i < ps.length),
        findCurrentIdx (ps.get ⟨i, hi⟩).userID ps = some i := by
  intro ps
  induction ps with
  | nil => intro _ i hi; cases (Nat.not_lt_zero i) hi
  | cons p ps ih =>
    intro hnd i hi
    match i with
    | 0 => simp [findCurrentIdx]
    | j + 1 =>
      have hj : j < ps.length := by simpa using hi
      have hget : (p :: ps).get ⟨j + 1, hi⟩ = ps.get ⟨j, hj⟩ := rfl
      rw [hget]
      rw [List.map_cons] at hnd
      obtain ⟨hnotin, hnd2⟩ := List.nodup_cons.mp hnd
      have hmem : (ps.get ⟨j, hj⟩).userID ∈ ps.map (·.userID) :=
        List.mem_map_of_mem _ (ps.get_mem _ _)
      have hne : ¬ p.userID = (ps.get ⟨j, hj⟩).userID := by
        intro heq
        exact hnotin (by rw [heq]; exact hmem)
      have ihj := ih hnd2 j hj
      simp only [List.get_eq_getElem] at ihj hne ⊢
      simp [findCurrentIdx, hne, ihj]

theorem toNat_emod_succ (i P : Nat) :
    (((i : Int) + 1) % ((P : Nat) : Int)).toNat = (i + 1) % P := by
  have h1 : ((i : Int) + 1) = ((i + 1 : Nat) : Int) := by push_cast; ring
  have h2 : ((i + 1 : Nat) : Int) % ((P : Nat) : Int) = (((i + 1) % P : Nat) : Int) := by
    push_cast
    ring
  rw [h1, h2, Int.toNat_natCast]

theorem uidAt_eq_get {rs : List GamePlayer} {i : Nat} (hi : i < rs.length) :
    uidAt rs i = (rs.get ⟨i, hi⟩).userID := by
  unfold uidAt
  rw [List.getD_eq_getElem _ _ (by simpa using hi)]
  simp

theorem players_uid (u : Int) (rs : List GamePlayer) :
    ((withTurn u rs).map toPlayer).map (·.userID) = rs.map (·.userID) := by
  simp only [withTurn, List.map_map]
  rfl

theorem players_length (u : Int) (rs : List GamePlayer) :
    ((withTurn u rs).map toPlayer).length = rs.length := by
  simp [withTurn]

theorem players_get_uid (u : Int) (rs : List GamePlayer) (i : Nat)
    (hi : i < rs.length) :
    (((withTurn u rs).map toPlayer).get
        ⟨i, by rw [players_length]; exact hi⟩).userID =
      (rs.get ⟨i, hi⟩).userID := by
  simp [withTurn, List.get_eq_getElem, List.getElem_map, toPlayer]

/-- Reduction of Engine.EndTurn on a state that passes both checks, with a
successful index search. -/
theorem endTurn_eq {gameID userID : Int} {s : StoreState} {st : GameState}
    (hget : GetGameState gameID s = .ok st)
    (hstat : st.status = StatusInProgress)
    (hcur : st.currentPlayerID = userID)
    {p0 : Player} {prest : List Player} (hcons : st.players = p0 :: prest)
    {i : Nat} (hfind : findCurrentIdx userID st.players = some i) :
    EndTurn gameID userID s =
      .ok ({ type := "turn_changed", gameID := gameID,
             payload := .turnChanged userID
               ((p0 :: prest).getD
                 ((((i : Int) + 1) % (((p0 :: prest).length : Nat) : Int)).toNat)
                 p0).userID },
           Store.UpdateCurrentTurn
             ((p0 :: prest).getD
               ((((i : Int) + 1) % (((p0 :: prest).length : Nat) : Int)).toNat)
               p0).userID s) := by
  unfold EndTurn
  rw [hget]
  rw [hcons] at hfind
  simp only [hcons, hstat, hcur, hfind]
  simp

/-- One successful advance: on an in-progress session whose sorted rows `rs`
carry the turn flag exactly at sorted position `i`, EndTurn called by that
holder hands the turn to sorted position `(i + 1) % rs.length` and reports
both ids. -/
theorem endTurn_step (gameID : Int) (g : Game) (rs : List GamePlayer)
    (i : Nat) (s : StoreState)
    (hpos : 0 < gameID)
    (hg : s.game = some g)
    (hstat : g.status = StatusInProgress)
    (hsort : List.Sorted orderLE rs)
    (hnd : (rs.map (·.userID)).Nodup)
    (hi : i < rs.length)
    (hrows : s.rows = withTurn (uidAt rs i) rs) :
    EndTurn gameID (uidAt rs i) s =
      .ok ({ type := "turn_changed", gameID := gameID,
             payload := .turnChanged (uidAt rs i)
               (uidAt rs ((i + 1) % rs.length)) },
           { s with rows := withTurn (uidAt rs ((i + 1) % rs.length)) rs }) := by
  have hu : uidAt rs i = (rs.get ⟨i, hi⟩).userID := uidAt_eq_get hi
  have hget : GetGameState gameID s = .ok (mkGameState g s.rows) := by
    unfold GetGameState
    rw [if_neg (by omega), hg]
  have hsort2 : List.Sorted orderLE s.rows := by
    rw [hrows]; exact sorted_withTurn hsort _
  have hplayers : (mkGameState g s.rows).players =
      (withTurn (uidAt rs i) rs).map toPlayer := by
    simp only [mkGameState]
    rw [sortByOrder_eq_self hsort2, hrows]
  have hlen : ((withTurn (uidAt rs i) rs).map toPlayer).length = rs.length :=
    players_length _ _
  have hmem : ((rs.any fun p => p.userID == uidAt rs i)) = true := by
    rw [List.any_eq_true]
    exact ⟨rs.get ⟨i, hi⟩, rs.get_mem _ _, by rw [hu]; exact beq_self_eq_true _⟩
  have hcur : (mkGameState g s.rows).currentPlayerID = uidAt rs i := by
    have : (mkGameState g s.rows).currentPlayerID =
        currentPlayerID ((withTurn (uidAt rs i) rs).map toPlayer) := by
      simp only [mkGameState]
      rw [sortByOrder_eq_self hsort2, hrows]
    rw [this]
    exact currentPlayerID_withTurn hmem
  have hndp : (((withTurn (uidAt rs i) rs).map toPlayer).map (·.userID)).Nodup := by
    rw [players_uid]; exact hnd
  have hi2 : i < ((withTurn (uidAt rs i) rs).map toPlayer).length := by
    rw [hlen]; exact hi
  have hfind : findCurrentIdx (uidAt rs i)
      ((withTurn (uidAt rs i) rs).map toPlayer) = some i := by
    have := findCurrentIdx_at _ hndp i hi2
    rwa [players_get_uid, ← hu] at this
  obtain ⟨p0, prest, hcons⟩ :
      ∃ p0 prest, (withTurn (uidAt rs i) rs).map toPlayer = p0 :: prest := by
    cases hc : (withTurn (uidAt rs i) rs).map toPlayer with
    | nil =>
      exfalso
      rw [hc] at hlen
      simp at hlen
      omega
    | cons a l => exact ⟨a, l, rfl⟩
  have hstat2 : (mkGameState g s.rows).status = StatusInProgress := by
    simp [mkGameState, hstat]
  have hfind2 : findCurrentIdx (uidAt rs i) (mkGameState g s.rows).players = some i := by
    rw [hplayers]; exact hfind
  have hcons2 : (mkGameState g s.rows).players = p0 :: prest := by
    rw [hplayers]; exact hcons
  have heq := endTurn_eq hget hstat2 hcur hcons2 hfind2
  have hlen2 : (p0 :: prest).length = rs.length := by
    rw [← hcons]; exact hlen
  have hmod : ((((i : Nat) : Int) + 1) % (((p0 :: prest).length : Nat) : Int)).toNat =
      (i + 1) % rs.length := by
    rw [hlen2]
    exact toNat_emod_succ i rs.length
  have hmodlt : (i + 1) % rs.length < rs.length := Nat.mod_lt _ (by omega)
  have hgetD : (p0 :: prest).getD
      ((((i : Nat) : Int) + 1) % (((p0 :: prest).length : Nat) : Int)).toNat p0 =
      ((withTurn (uidAt rs i) rs).map toPlayer).get
        ⟨(i + 1) % rs.length, by rw [players_length]; exact hmodlt⟩ := by
    rw [hmod, ← hcons]
    rw [List.getD_eq_getElem _ _ (by rw [players_length]; exact hmodlt)]
    simp [List.get_eq_getElem]
  have hnext : ((p0 :: prest).getD
      ((((i : Nat) : Int) + 1) % (((p0 :: prest).length : Nat) : Int)).toNat p0).userID =
      uidAt rs ((i + 1) % rs.length) := by
    rw [hgetD, players_get_uid _ _ _ hmodlt, ← uidAt_eq_get hmodlt]
  rw [heq, hnext]
  have hstore : Store.UpdateCurrentTurn (uidAt rs ((i + 1) % rs.length)) s =
      { s with rows := withTurn (uidAt rs ((i + 1) % rs.length)) rs } := by
    have h1 := updateCurrentTurn_rows (uidAt rs ((i + 1) % rs.length)) s
    have h2 := updateCurrentTurn_game (uidAt rs ((i + 1) % rs.length)) s
    cases hsv : s with
    | mk game rows =>
      rw [hsv] at h1 h2 hrows
      simp only at h1 h2 hrows ⊢
      rw [show Store.UpdateCurrentTurn (uidAt rs ((i + 1) % rs.length))
            { game := game, rows := rows } =
          { game := game,
            rows := withTurn (uidAt rs ((i + 1) % rs.length)) rows } from by
        unfold Store.UpdateCurrentTurn at *
        simp only [StoreState.mk.injEq] at h1 ⊢
        simp [h1]]
      rw [hrows, withTurn_withTurn]
  rw [hstore]

theorem getGameState_some {gameID : Int} {s : StoreState} {g : Game}
    (hpos : 0 < gameID) (hg : s.game = some g) :
    GetGameState gameID s = .ok (mkGameState g s.rows) := by
  unfold GetGameState
  rw [if_neg (by omega), hg]

theorem cur_of_withTurn (g : Game) (rs : List GamePlayer) (i : Nat)
    (hsort : List.Sorted orderLE rs) (hi : i < rs.length) :
    (mkGameState g (withTurn (uidAt rs i) rs)).currentPlayerID = uidAt rs i := by
  simp only [mkGameState]
  rw [sortByOrder_eq_self (sorted_withTurn hsort _)]
  refine currentPlayerID_withTurn ?_
  rw [List.any_eq_true]
  exact ⟨rs.get ⟨i, hi⟩, rs.get_mem _ _,
    by rw [uidAt_eq_get hi]; exact beq_self_eq_true _⟩

/-- K successful advances move the turn from sorted position `i` to sorted
position `(i + K) % rs.length`. -/
theorem advanceK_inv (gameID : Int) (g : Game) (rs : List GamePlayer)
    (hpos : 0 < gameID) (hstat : g.status = StatusInProgress)
    (hsort : List.Sorted orderLE rs) (hnd : (rs.map (·.userID)).Nodup) :
    ∀ (K : Nat) (i : Nat) (s : StoreState), s.game = some g →
      i < rs.length → s.rows = withTurn (uidAt rs i) rs →
      advanceK gameID K s =
        .ok { s with rows := withTurn (uidAt rs ((i + K) % rs.length)) rs } := by
  intro K
  induction K with
  | zero =>
    intro i s hg hi hrows
    rw [Nat.add_zero, Nat.mod_eq_of_lt hi, ← hrows]
    rfl
  | succ k ih =>
    intro i s hg hi hrows
    have hget := getGameState_some hpos hg
    have hcur : (mkGameState g s.rows).currentPlayerID = uidAt rs i := by
      rw [hrows]; exact cur_of_withTurn g rs i hsort hi
    have hstep := endTurn_step gameID g rs i s hpos hg hstat hsort hnd hi hrows
    have hi1 : (i + 1) % rs.length < rs.length := Nat.mod_lt _ (by omega)
    have hih := ih ((i + 1) % rs.length)
      { s with rows := withTurn (uidAt rs ((i + 1) % rs.length)) rs }
      hg hi1 rfl
    show advanceK gameID (k + 1) s = _
    rw [advanceK, hget]
    simp only
    rw [hcur, hstep]
    simp only
    rw [hih]
    have hidx : ((i + 1) % rs.length + k) % rs.length = (i + (k + 1)) % rs.length := by
      rw [Nat.mod_add_mod]
      congr 1
      omega
    rw [hidx]

theorem players_sorted_order (rows : List GamePlayer) :
    List.Pairwise (fun a b : Player => a.order ≤ b.order)
      ((sortByOrder rows).map toPlayer) := by
  rw [List.pairwise_map]
  exact sortByOrder_sorted rows

theorem head_min_order {p : Player} {prest : List Player} {rows : List GamePlayer}
    (hcons : (sortByOrder rows).map toPlayer = p :: prest) :
    ∀ q ∈ (sortByOrder rows).map toPlayer, p.order ≤ q.order := by
  have hpw := players_sorted_order rows
  rw [hcons] at hpw ⊢
  intro q hq
  rcases List.mem_cons.mp hq with rfl | hq2
  · exact le_refl _
  · exact (List.pairwise_cons.mp hpw).1 q hq2

/-! Concrete fixtures used by witnesses and counterexamples. -/

/-- A session in waiting status with capacity 4. -/
def exGame : Game := { id := 1, status := StatusWaiting, maxPlayers := 4 }

/-- Participant alice, join order 0, already ready. -/
def exRowA : GamePlayer :=
  { userID := 1, username := "alice", playerOrder := 0,
    isReady := true, isCurrentTurn := false }

/-- Participant bob, join order 1, not ready yet. -/
def exRowB : GamePlayer :=
  { userID := 2, username := "bob", playerOrder := 1,
    isReady := false, isCurrentTurn := false }

/-- A waiting two-participant session: alice ready, bob not. -/
def exWaiting : StoreState := { game := some exGame, rows := [exRowA, exRowB] }

/-- Rows of a running session: both participants ready, no turn flag in the
skeleton (flags are set through `withTurn`). -/
def exRunRows : List GamePlayer :=
  [{ userID := 1, username := "alice", playerOrder := 0,
     isReady := true, isCurrentTurn := false },
   { userID := 2, username := "bob", playerOrder := 1,
     isReady := true, isCurrentTurn := false }]

/-- A running session where alice (sorted position 0) holds the turn. -/
def exActive : StoreState :=
  { game := some { id := 1, status := StatusInProgress, maxPlayers := 4 },
    rows := withTurn 1 exRunRows }

/-- An in-progress session with no participant rows at all: the state that
makes the EndTurn guard pass for user id 0. -/
def exEmptyActive : StoreState :=
  { game := some { id := 5, status := StatusInProgress, maxPlayers := 4 },
    rows := [] }

/-! Claim theorems. -/

/-- Claim C9: for every requested maximum participant count, Lobby.CreateGame
stores a maximum between 2 and 8: requests below 2 are clamped to 2, above 8
clamped to 8, in-range requests kept, and creation succeeds (the row is
inserted in waiting status; there is no rejection path). -/
theorem claim9_createGame_clamped (maxPlayers gameID : Int) :
    2 ≤ (CreateGame maxPlayers gameID).maxPlayers ∧
    (CreateGame maxPlayers gameID).maxPlayers ≤ 8 ∧
    (maxPlayers < 2 → (CreateGame maxPlayers gameID).maxPlayers = 2) ∧
    (8 < maxPlayers → (CreateGame maxPlayers gameID).maxPlayers = 8) ∧
    (2 ≤ maxPlayers → maxPlayers ≤ 8 →
      (CreateGame maxPlayers gameID).maxPlayers = maxPlayers) ∧
    (CreateGame maxPlayers gameID).status = StatusWaiting ∧
    (CreateGame maxPlayers gameID).id = gameID := by
  unfold CreateGame Store.CreateGame
  refine ⟨?_, ?_, ?_, ?_, ?_, rfl, rfl⟩ <;> split <;> simp_all <;> omega

/-- Witness for C9: a request of 100 is stored as 8, a request of 0 as 2. -/
theorem claim9_witness :
    (CreateGame 100 7).maxPlayers = 8 ∧ (CreateGame 0 9).maxPlayers = 2 :=
  ⟨(claim9_createGame_clamped 100 7).2.2.2.1 (by omega),
   (claim9_createGame_clamped 0 9).2.2.1 (by omega)⟩

/-- Claim C7 counterexample: a present but non-boolean `isReady` value is not
processed as SetReady(.., true); the handler replies with a private error and
does not call the engine. -/
theorem claim7_counterexample :
    handleReadyPayload (some .other) = .replyError "Invalid isReady value" ∧
    handleReadyPayload (some .other) ≠ .callSetReady true :=
  ⟨rfl, by decide⟩

/-- Claim C7 as amended: the `isReady` flag defaults to true only when the
payload field is absent; a boolean field is taken as given; a present
non-boolean field produces a private error reply and the command is not
processed. -/
theorem claim7_ready_default (b : Bool) :
    handleReadyPayload none = .callSetReady true ∧
    handleReadyPayload (some (.bool b)) = .callSetReady b ∧
    handleReadyPayload (some .other) = .replyError "Invalid isReady value" :=
  ⟨rfl, rfl, rfl⟩

/-- Claim C3: Engine.JoinGame validates in this order: waiting status (else
AlreadyStarted), participant count below the maximum (else Full), user not
already a member (else AlreadyMember); on success the new participant gets
join order equal to the current participant count and a ParticipantJoined
event is returned. -/
theorem claim3_joinGame_validation_order (gameID userID : Int)
    (username : String) (s : StoreState) (st : GameState)
    (hget : GetGameState gameID s = .ok st) :
    (st.status ≠ StatusWaiting →
      JoinGame gameID userID username s = .fail .gameStarted) ∧
    (st.status = StatusWaiting → (st.players.length : Int) ≥ st.maxPlayers →
      JoinGame gameID userID username s = .fail .gameFull) ∧
    (st.status = StatusWaiting → (st.players.length : Int) < st.maxPlayers →
      (st.players.any fun p => p.userID == userID) = true →
      JoinGame gameID userID username s = .fail .alreadyInGame) ∧
    (st.status = StatusWaiting → (st.players.length : Int) < st.maxPlayers →
      (st.players.any fun p => p.userID == userID) = false →
      JoinGame gameID userID username s =
        .ok ({ type := "player_joined", gameID := gameID,
               payload := .playerJoined
                 { userID := userID, username := username,
                   order := st.players.length,
                   isReady := false, isCurrentTurn := false } },
             Store.JoinGame userID username st.players.length s)) := by
  unfold JoinGame
  rw [hget]
  refine ⟨?_, ?_, ?_, ?_⟩
  · intro h
    simp only
    rw [if_pos h]
  · intro h1 h2
    simp only
    rw [if_neg (by simp [h1]), if_pos h2]
  · intro h1 h2 h3
    simp only
    rw [if_neg (by simp [h1]), if_neg (by omega), if_pos h3]
  · intro h1 h2 h3
    simp only
    rw [if_neg (by simp [h1]), if_neg (by omega), if_neg (by simp [h3])]

/-- Witness for C3: joining the two-participant waiting session as carol
succeeds with join order 2 (the participant count), while joining again as
alice is rejected as already a member. -/
theorem claim3_witness :
    JoinGame 1 3 "carol" exWaiting =
      .ok ({ type := "player_joined", gameID := 1,
             payload := .playerJoined
               { userID := 3, username := "carol", order := 2,
                 isReady := false, isCurrentTurn := false } },
           Store.JoinGame 3 "carol" 2 exWaiting) ∧
    JoinGame 1 1 "alice" exWaiting = .fail .alreadyInGame := by
  have h := claim3_joinGame_validation_order 1 3 "carol" exWaiting
    (mkGameState exGame exWaiting.rows) rfl
  have h2 := claim3_joinGame_validation_order 1 1 "alice" exWaiting
    (mkGameState exGame exWaiting.rows) rfl
  exact ⟨h.2.2.2 rfl (by decide) (by decide), h2.2.2.1 rfl (by decide) (by decide)⟩

/-- Claim C1: on a waiting session, for a member user, Engine.SetReady first
commits the ready flag, then re-reads the participant set (`st1`); if the
re-read shows at least 2 participants all ready, it sets the status to
in_progress (the Active state), hands the turn to the participant with the
lowest join order (the head of the order-sorted list, shown minimal) and
returns the game_started event; otherwise it returns the player_ready event
with only the flag committed.  The returned event is always exactly one of
the two. -/
theorem claim1_setReady_start_or_readiness (gameID userID : Int)
    (isReady : Bool) (s : StoreState) (st st1 : GameState)
    (hget : GetGameState gameID s = .ok st)
    (hw : st.status = StatusWaiting)
    (hm : (st.players.any fun p => p.userID == userID) = true)
    (hget1 : GetGameState gameID (Store.UpdatePlayerReady userID isReady s) =
      .ok st1) :
    ((2 ≤ st1.players.length ∧ st1.players.all (fun p => p.isReady) = true) →
      ∀ p prest, st1.players = p :: prest →
        (∀ q ∈ st1.players, p.order ≤ q.order) ∧
        SetReady gameID userID isReady s =
          .ok ({ type := "game_started", gameID := gameID,
                 payload := .gameStarted p.userID },
               Store.UpdateCurrentTurn p.userID
                 (Store.UpdateGameStatus StatusInProgress
                   (Store.UpdatePlayerReady userID isReady s)))) ∧
    (¬ (2 ≤ st1.players.length ∧ st1.players.all (fun p => p.isReady) = true) →
      SetReady gameID userID isReady s =
        .ok ({ type := "player_ready", gameID := gameID,
               payload := .playerReady userID isReady },
             Store.UpdatePlayerReady userID isReady s)) ∧
    (∃ ev s2, SetReady gameID userID isReady s = .ok (ev, s2) ∧
      (ev.type = "game_started" ∨ ev.type = "player_ready") ∧
      ¬ (ev.type = "game_started" ∧ ev.type = "player_ready")) := by
  have hred : SetReady gameID userID isReady s =
      (if 2 ≤ st1.players.length ∧ st1.players.all (fun p => p.isReady) = true
       then
        match st1.players with
        | [] => EResult.crash
        | firstPlayer :: _ =>
          .ok ({ type := "game_started", gameID := gameID,
                 payload := .gameStarted firstPlayer.userID },
               Store.UpdateCurrentTurn firstPlayer.userID
                 (Store.UpdateGameStatus StatusInProgress
                   (Store.UpdatePlayerReady userID isReady s)))
       else
        .ok ({ type := "player_ready", gameID := gameID,
               payload := .playerReady userID isReady },
             Store.UpdatePlayerReady userID isReady s)) := by
    unfold SetReady
    rw [hget]
    simp only
    rw [if_neg (by simp [hw]), if_neg (by simp [hm]), hget1]
  refine ⟨?_, ?_, ?_⟩
  · intro hc p prest hcons
    constructor
    · have hpl : st1.players = (sortByOrder
          (Store.UpdatePlayerReady userID isReady s).rows).map toPlayer := by
        rcases getGameState_eq_ok.mp hget1 with ⟨_, g1, _, hst1⟩
        rw [hst1]
        rfl
      rw [hpl] at hcons ⊢
      exact head_min_order hcons
    · rw [hred, if_pos hc, hcons]
  · intro hnc
    rw [hred, if_neg hnc]
  · by_cases hc : 2 ≤ st1.players.length ∧ st1.players.all (fun p => p.isReady) = true
    · obtain ⟨p, prest, hcons⟩ : ∃ p prest, st1.players = p :: prest := by
        cases hcl : st1.players with
        | nil => rw [hcl] at hc; simp at hc
        | cons a l => exact ⟨a, l, rfl⟩
      refine ⟨_, _, by rw [hred, if_pos hc, hcons], .inl rfl, ?_⟩
      rintro ⟨h1, h2⟩
      rw [h1] at h2
      simp at h2
    · refine ⟨_, _, by rw [hred, if_neg hc], .inr rfl, ?_⟩
      rintro ⟨h1, h2⟩
      rw [h1] at h2
      simp at h2

/-- Witness for C1: bob readying up on the waiting session where alice is
already ready makes both ready, so the call starts the game and hands the
turn to alice (lowest join order). -/
theorem claim1_witness :
    SetReady 1 2 true exWaiting =
      .ok ({ type := "game_started", gameID := 1,
             payload := .gameStarted 1 },
           Store.UpdateCurrentTurn 1
             (Store.UpdateGameStatus StatusInProgress
               (Store.UpdatePlayerReady 2 true exWaiting))) := by
  have h := claim1_setReady_start_or_readiness 1 2 true exWaiting
    (mkGameState exGame exWaiting.rows)
    (mkGameState exGame (Store.UpdatePlayerReady 2 true exWaiting).rows)
    rfl rfl (by decide) rfl
  exact (h.1 (by decide)
    { userID := 1, username := "alice", order := 0,
      isReady := true, isCurrentTurn := false }
    [{ userID := 2, username := "bob", order := 1,
       isReady := true, isCurrentTurn := false }] (by decide)).2

/-- Claim C2: on an active session whose order-sorted rows `rs` hold the
turn at position `i`, EndTurn called by the holder hands the turn to the
next position in join order, wrapping from the highest back to the lowest
(position `(i + 1) % P`), and the event carries the previous and the new
holder ids; consequently K consecutive successful advances put the holder
K mod P positions ahead of the original in join order. -/
theorem claim2_endTurn_round_robin (gameID : Int) (g : Game)
    (rs : List GamePlayer) (i : Nat) (s : StoreState)
    (hpos : 0 < gameID) (hg : s.game = some g)
    (hstat : g.status = StatusInProgress)
    (hsort : List.Sorted orderLE rs)
    (hnd : (rs.map (·.userID)).Nodup)
    (hi : i < rs.length)
    (hrows : s.rows = withTurn (uidAt rs i) rs) :
    (EndTurn gameID (uidAt rs i) s =
      .ok ({ type := "turn_changed", gameID := gameID,
             payload := .turnChanged (uidAt rs i)
               (uidAt rs ((i + 1) % rs.length)) },
           { s with rows := withTurn (uidAt rs ((i + 1) % rs.length)) rs })) ∧
    (∀ K : Nat,
      advanceK gameID K s =
        .ok { s with rows := withTurn (uidAt rs ((i + K) % rs.length)) rs } ∧
      (i + K) % rs.length = (i + K % rs.length) % rs.length) :=
  ⟨endTurn_step gameID g rs i s hpos hg hstat hsort hnd hi hrows,
   fun K =>
    ⟨advanceK_inv gameID g rs hpos hstat hsort hnd K i s hg hi hrows,
     (Nat.add_mod_mod i K rs.length).symm⟩⟩

/-- Witness for C2: on the running two-participant session with alice
holding the turn, her EndTurn hands the turn to bob, and three consecutive
advances land on bob (3 mod 2 = 1 position ahead). -/
theorem claim2_witness :
    EndTurn 1 1 exActive =
      .ok ({ type := "turn_changed", gameID := 1,
             payload := .turnChanged 1 2 },
           { exActive with rows := withTurn 2 exRunRows }) ∧
    advanceK 1 3 exActive = .ok { exActive with rows := withTurn 2 exRunRows } := by
  have h := claim2_endTurn_round_robin 1
    { id := 1, status := StatusInProgress, maxPlayers := 4 }
    exRunRows 0 exActive (by omega) rfl rfl (by decide) (by decide)
    (by decide) rfl
  exact ⟨h.1, (h.2 3).1⟩

/-- Claim C10 counterexample: on an in-progress session with no participant
rows, GetGameState derives CurrentPlayerID 0 (the zero value), so the
current-turn check passes for caller user id 0 although the caller is not in
the (empty) player list, and EndTurn hits the zero modulus (a Go panic). -/
theorem claim10_counterexample :
    GetGameState 5 exEmptyActive =
      .ok { id := 5, status := StatusInProgress, players := [],
            currentPlayerID := 0, maxPlayers := 4 } ∧
    EndTurn 5 0 exEmptyActive = .crash :=
  ⟨rfl, rfl⟩

/-- Claim C10 as amended: whenever the current-turn check of EndTurn passes
for a caller with a nonzero user id (true of every real caller, user ids
being positive autoincrement keys), the caller appears in the player list,
the linear search succeeds, the player count is positive (so the modulo
divisor is never zero) and EndTurn cannot panic. -/
theorem claim10_endTurn_guard_safe (gameID userID : Int) (s : StoreState)
    (st : GameState)
    (hget : GetGameState gameID s = .ok st)
    (hz : userID ≠ 0)
    (hcur : st.currentPlayerID = userID) :
    (∃ p ∈ st.players, p.userID = userID) ∧
    (∃ i, findCurrentIdx userID st.players = some i) ∧
    0 < st.players.length ∧
    EndTurn gameID userID s ≠ .crash := by
  have hfield : st.currentPlayerID = currentPlayerID st.players := by
    rcases getGameState_eq_ok.mp hget with ⟨_, g, hgm, rfl⟩
    rfl
  have hne : currentPlayerID st.players ≠ 0 := by
    rw [← hfield, hcur]; exact hz
  obtain ⟨p, hp, hpt, hpu⟩ := currentPlayerID_mem hne
  have hmem : ∃ q ∈ st.players, q.userID = userID :=
    ⟨p, hp, by rw [hpu, ← hfield, hcur]⟩
  have hlen : 0 < st.players.length := List.length_pos_of_mem hp
  refine ⟨hmem, findCurrentIdx_isSome hmem, hlen, ?_⟩
  obtain ⟨p0, prest, hcons⟩ : ∃ p0 prest, st.players = p0 :: prest := by
    cases hcl : st.players with
    | nil => rw [hcl] at hlen; simp at hlen
    | cons a l => exact ⟨a, l, rfl⟩
  unfold EndTurn
  rw [hget]
  simp only
  by_cases h1 : st.status ≠ StatusInProgress
  · rw [if_pos h1]; simp
  · rw [if_neg h1]
    by_cases h2 : st.currentPlayerID ≠ userID
    · rw [if_pos h2]; simp
    · rw [if_neg h2, hcons]
      simp

/-- Witness for C10 as amended: on the running session alice (user id 1)
passes the guard, is found at index 0 and EndTurn does not crash. -/
theorem claim10_witness :
    (∃ p ∈ (mkGameState { id := 1, status := StatusInProgress, maxPlayers := 4 }
        exActive.rows).players, p.userID = 1) ∧
    (∃ i, findCurrentIdx 1
      (mkGameState { id := 1, status := StatusInProgress, maxPlayers := 4 }
        exActive.rows).players = some i) ∧
    0 < (mkGameState { id := 1, status := StatusInProgress, maxPlayers := 4 }
        exActive.rows).players.length ∧
    EndTurn 1 1 exActive ≠ .crash :=
  claim10_endTurn_guard_safe 1 1 exActive
    (mkGameState { id := 1, status := StatusInProgress, maxPlayers := 4 }
      exActive.rows) rfl (by decide) (by decide)

/-- Claim C8: Room.RemoveClient is idempotent and closes the send channel
exactly once: a second call (each call runs whole under the room mutex, so
two racing calls execute as two sequential calls) leaves the whole room
state unchanged, a first call on an attached client removes it and closes
its channel exactly once, and a call on a detached client does nothing. -/
theorem claim8_removeClient_idempotent (r : RoomState) (c : Nat) :
    RemoveClient c (RemoveClient c r) = RemoveClient c r ∧
    (c ∈ r.clients →
      (RemoveClient c r).clients = r.clients.erase c ∧
      c ∉ (RemoveClient c r).clients ∧
      (RemoveClient c r).closeCount c = r.closeCount c + 1 ∧
      (RemoveClient c (RemoveClient c r)).closeCount c = r.closeCount c + 1) ∧
    (c ∉ r.clients → RemoveClient c r = r) := by
  have hnotin : ∀ r2 : RoomState, c ∉ r2.clients → RemoveClient c r2 = r2 :=
    fun r2 h => if_neg h
  by_cases h : c ∈ r.clients
  · have h1 : (RemoveClient c r).clients = r.clients.erase c := by
      unfold RemoveClient
      rw [if_pos h]
    have h2 : c ∉ (RemoveClient c r).clients := by
      rw [h1]
      exact Finset.not_mem_erase c r.clients
    have h3 : (RemoveClient c r).closeCount c = r.closeCount c + 1 := by
      unfold RemoveClient
      rw [if_pos h]
      simp
    have h4 := hnotin _ h2
    refine ⟨h4, fun _ => ⟨h1, h2, h3, by rw [h4]; exact h3⟩, fun hc => absurd h hc⟩
  · have h1 := hnotin _ h
    refine ⟨by rw [h1, h1], fun hc => absurd hc h, fun _ => h1⟩

/-- Witness for C8: removing client 0 from a room with clients 0 and 1 and
no prior closes leaves client set 1 with one close of the channel of 0, and
a repeated removal changes nothing. -/
theorem claim8_witness :
    RemoveClient 0 (RemoveClient 0 { clients := {0, 1}, closeCount := fun _ => 0 }) =
      RemoveClient 0 { clients := {0, 1}, closeCount := fun _ => 0 } ∧
    (RemoveClient 0 { clients := {0, 1}, closeCount := fun _ => 0 }).closeCount 0 = 1 ∧
    (RemoveClient 0 (RemoveClient 0
      { clients := {0, 1}, closeCount := fun _ => 0 })).closeCount 0 = 1 := by
  have h := claim8_removeClient_idempotent
    { clients := {0, 1}, closeCount := fun _ => 0 } 0
  obtain ⟨hidem, hmem, _⟩ := h
  obtain ⟨_, _, h3, h4⟩ := hmem (by decide)
  exact ⟨hidem, h3, h4⟩

theorem turnCount_withTurn (u : Int) (rows : List GamePlayer) :
    turnCount (withTurn u rows) = (rows.map (·.userID)).count u := by
  unfold turnCount withTurn
  rw [List.countP_map]
  rw [show (List.count u (rows.map (·.userID))) =
      List.countP (· == u) (rows.map (·.userID)) from rfl]
  rw [List.countP_map]
  rfl

theorem turnCount_withTurn_le {u : Int} {rows : List GamePlayer}
    (hnd : (rows.map (·.userID)).Nodup) : turnCount (withTurn u rows) ≤ 1 := by
  rw [turnCount_withTurn]
  exact List.nodup_iff_count_le_one.mp hnd u

theorem turnCount_withTurn_eq_one {u : Int} {rows : List GamePlayer}
    (hnd : (rows.map (·.userID)).Nodup) (hmem : u ∈ rows.map (·.userID)) :
    turnCount (withTurn u rows) = 1 := by
  rw [turnCount_withTurn]
  exact List.count_eq_one_of_mem hnd hmem

theorem setReady_ok_rows {gameID userID : Int} {b : Bool} {s : StoreState}
    {ev : Event} {s1 : StoreState}
    (h : SetReady gameID userID b s = .ok (ev, s1)) :
    s1.rows = (Store.UpdatePlayerReady userID b s).rows ∨
    ∃ v, s1.rows = withTurn v (Store.UpdatePlayerReady userID b s).rows := by
  unfold SetReady at h
  split at h
  · simp at h
  · simp at h
  · split at h
    · simp at h
    · split at h
      · simp at h
      · simp only [] at h
        split at h
        · simp at h
        · simp at h
        · split at h
          · split at h
            · simp at h
            · simp only [EResult.ok.injEq, Prod.mk.injEq] at h
              right
              rw [← h.2, updateCurrentTurn_rows]
              exact ⟨_, rfl⟩
          · simp only [EResult.ok.injEq, Prod.mk.injEq] at h
            left
            rw [← h.2]

theorem endTurn_ok_rows {gameID userID : Int} {s : StoreState}
    {ev : Event} {s1 : StoreState}
    (h : EndTurn gameID userID s = .ok (ev, s1)) :
    ∃ v, s1.rows = withTurn v s.rows := by
  unfold EndTurn at h
  split at h
  · simp at h
  · simp at h
  · split at h
    · simp at h
    · split at h
      · simp at h
      · split at h <;> split at h
        · simp at h
        · simp only [EResult.ok.injEq, Prod.mk.injEq] at h
          rw [← h.2, updateCurrentTurn_rows]
          exact ⟨_, rfl⟩
        · simp at h
        · simp only [EResult.ok.injEq, Prod.mk.injEq] at h
          rw [← h.2, updateCurrentTurn_rows]
          exact ⟨_, rfl⟩

/-- Claim C6: the turn flag is written only through
Store.UpdateCurrentTurn, whose clear-all-then-set-one transaction leaves at
most one row flagged (exactly one when the target user is a member), and
both turn-writing engine operations (the start transition inside SetReady,
and EndTurn) leave at most one row of the session flagged. -/
theorem claim6_turn_flag_invariant (gameID userID u : Int) (b : Bool)
    (s : StoreState) (hnd : (s.rows.map (·.userID)).Nodup) :
    turnCount (Store.UpdateCurrentTurn u s).rows ≤ 1 ∧
    (u ∈ s.rows.map (·.userID) →
      turnCount (Store.UpdateCurrentTurn u s).rows = 1) ∧
    (turnCount s.rows ≤ 1 → ∀ ev s1,
      SetReady gameID userID b s = .ok (ev, s1) → turnCount s1.rows ≤ 1) ∧
    (∀ ev s1, EndTurn gameID userID s = .ok (ev, s1) →
      turnCount s1.rows ≤ 1) := by
  refine ⟨?_, ?_, ?_, ?_⟩
  · rw [updateCurrentTurn_rows]
    exact turnCount_withTurn_le hnd
  · intro hmem
    rw [updateCurrentTurn_rows]
    exact turnCount_withTurn_eq_one hnd hmem
  · intro hbound ev s1 h
    rcases setReady_ok_rows h with heq | ⟨v, heq⟩
    · rw [heq, updatePlayerReady_turnCount]
      exact hbound
    · rw [heq]
      refine turnCount_withTurn_le ?_
      rw [updatePlayerReady_uid]
      exact hnd
  · intro ev s1 h
    rcases endTurn_ok_rows h with ⟨v, heq⟩
    rw [heq]
    exact turnCount_withTurn_le hnd

/-- Witness for C6: on the waiting fixture session, reassigning the turn to
alice flags exactly one row, and the start transition triggered by bob
leaves exactly one flagged row. -/
theorem claim6_witness :
    turnCount (Store.UpdateCurrentTurn 1 exWaiting).rows = 1 ∧
    (∀ ev s1, SetReady 1 2 true exWaiting = .ok (ev, s1) →
      turnCount s1.rows ≤ 1) := by
  have h := claim6_turn_flag_invariant 1 2 1 true exWaiting (by decide)
  exact ⟨h.2.1 (by decide), h.2.2.1 (by decide)⟩

theorem getGameState_ne_crash (gameID : Int) (s : StoreState) :
    GetGameState gameID s ≠ .crash := by
  unfold GetGameState
  split
  · simp
  · split <;> simp

/-- A waiting two-participant session where nobody is ready yet. -/
def exFresh : StoreState :=
  { game := some exGame,
    rows := [{ exRowA with isReady := false }, exRowB] }

/-- Claim C4 (violated by the code): the Engine struct holds only the store,
no lock, so the phases of two SetReady calls for one session interleave
freely.  First conjunct: SetReady is exactly phase 1 (validate and commit
the flag) followed by phase 2 (re-read and maybe start), so the phase split
is faithful.  Second conjunct: from the waiting session with nobody ready,
the interleaving A1, B1, A2, B2 of SetReady(user 1, true) and
SetReady(user 2, true) makes BOTH calls perform the start transition and
return game_started — the double trigger that per-session mutual exclusion
is supposed to prevent. -/
theorem claim4_no_lock_double_start :
    (∀ (gameID userID : Int) (isReady : Bool) (s : StoreState),
      SetReady gameID userID isReady s =
        (match setReadyPhase1 gameID userID isReady s with
         | (some e, _) => .fail e
         | (none, s1) => setReadyPhase2 gameID userID isReady s1)) ∧
    (∃ sA sB s3 s4,
      setReadyPhase1 1 1 true exFresh = (none, sA) ∧
      setReadyPhase1 1 2 true sA = (none, sB) ∧
      setReadyPhase2 1 1 true sB =
        .ok ({ type := "game_started", gameID := 1,
               payload := .gameStarted 1 }, s3) ∧
      setReadyPhase2 1 2 true s3 =
        .ok ({ type := "game_started", gameID := 1,
               payload := .gameStarted 1 }, s4)) := by
  constructor
  · intro gameID userID isReady s
    unfold SetReady setReadyPhase1 setReadyPhase2
    cases hg : GetGameState gameID s with
    | fail e => simp [hg]
    | crash => exact absurd hg (getGameState_ne_crash gameID s)
    | ok state =>
      simp only [hg]
      by_cases h1 : state.status ≠ StatusWaiting
      · simp [h1]
      · by_cases h2 : ¬ (state.players.any fun p => p.userID == userID) = true
        · simp [h1, h2]
        · simp only [if_neg h1, if_neg h2]
  · exact ⟨_, _, _, _, rfl, rfl, rfl, rfl⟩

theorem nextFault_s (fs : FStore) : (nextFault fs).2.s = fs.s := by
  unfold nextFault
  split <;> rfl

theorem getGameStateF_s (gameID : Int) (fs : FStore) :
    (GetGameStateF gameID fs).2.s = fs.s := by
  unfold GetGameStateF
  rcases h1 : nextFault fs with ⟨f1, fs1⟩
  have e1 : fs1.s = fs.s := by
    have := nextFault_s fs
    rw [h1] at this
    exact this
  rcases h2 : nextFault fs1 with ⟨f2, fs2⟩
  have e2 : fs2.s = fs1.s := by
    have := nextFault_s fs1
    rw [h2] at this
    exact this
  split
  · rfl
  · simp only [h1]
    split
    · exact e1
    · split
      · exact e1
      · simp only [h2]
        split
        · rw [e2, e1]
        · rw [e2, e1]

theorem getGameStateF_ok {gameID : Int} {fs : FStore} {st : GameState}
    {fs1 : FStore} (h : GetGameStateF gameID fs = (.ok st, fs1)) :
    ¬ gameID ≤ 0 ∧ fs1.s = fs.s ∧ ∃ g, fs.s.game = some g := by
  have hs : fs1.s = fs.s := by
    have := getGameStateF_s gameID fs
    rw [h] at this
    exact this
  unfold GetGameStateF at h
  rcases h1 : nextFault fs with ⟨f1, fs1'⟩
  have e1 : fs1'.s = fs.s := by
    have := nextFault_s fs
    rw [h1] at this
    exact this
  rw [h1] at h
  split at h
  · simp at h
  · simp only at h
    split at h
    · simp at h
    · split at h
      · simp at h
      · refine ⟨by assumption, hs, ?_⟩
        rw [← e1]
        exact ⟨_, by assumption⟩

theorem getGameStateF_fail {gameID : Int} {fs : FStore} {g : Game}
    (hg : fs.s.game = some g) (hpos : ¬ gameID ≤ 0) {e : EngineError}
    {fs1 : FStore} (h : GetGameStateF gameID fs = (.fail e, fs1)) :
    e = .storeFault := by
  unfold GetGameStateF at h
  rw [if_neg hpos] at h
  rcases h1 : nextFault fs with ⟨f1, fs1'⟩
  have e1 : fs1'.s = fs.s := by
    have := nextFault_s fs
    rw [h1] at this
    exact this
  rw [h1] at h
  simp only at h
  split at h
  · simp only [Prod.mk.injEq, EResult.fail.injEq] at h
    exact h.1.symm
  · split at h
    · rw [e1, hg] at *
      simp_all
    · rcases h2 : nextFault fs1' with ⟨f2, fs2⟩
      rw [h2] at h
      simp only at h
      split at h
      · simp only [Prod.mk.injEq, EResult.fail.injEq] at h
        exact h.1.symm
      · simp at h

theorem updatePlayerReadyF_some {u : Int} {b : Bool} {fs : FStore}
    {e : EngineError} {fs2 : FStore}
    (h : UpdatePlayerReadyF u b fs = (some e, fs2)) : e = .storeFault := by
  unfold UpdatePlayerReadyF at h
  rcases hn : nextFault fs with ⟨f, fs'⟩
  rw [hn] at h
  simp only at h
  split at h
  · simp only [Prod.mk.injEq, Option.some.injEq] at h
    exact h.1.symm
  · simp at h

theorem updatePlayerReadyF_none {u : Int} {b : Bool} {fs : FStore}
    {fs2 : FStore} (h : UpdatePlayerReadyF u b fs = (none, fs2)) :
    fs2.s = Store.UpdatePlayerReady u b fs.s := by
  unfold UpdatePlayerReadyF at h
  rcases hn : nextFault fs with ⟨f, fs'⟩
  have e1 : fs'.s = fs.s := by
    have := nextFault_s fs
    rw [hn] at this
    exact this
  rw [hn] at h
  simp only at h
  split at h
  · simp at h
  · simp only [Prod.mk.injEq] at h
    rw [← h.2]
    simp [e1]

theorem updateGameStatusF_some {st : String} {fs : FStore}
    {e : EngineError} {fs2 : FStore}
    (h : UpdateGameStatusF st fs = (some e, fs2)) : e = .storeFault := by
  unfold UpdateGameStatusF at h
  rcases hn : nextFault fs with ⟨f, fs'⟩
  rw [hn] at h
  simp only at h
  split at h
  · simp only [Prod.mk.injEq, Option.some.injEq] at h
    exact h.1.symm
  · simp at h

theorem updateCurrentTurnF_some {u : Int} {fs : FStore}
    {e : EngineError} {fs2 : FStore}
    (h : UpdateCurrentTurnF u fs = (some e, fs2)) : e = .storeFault := by
  unfold UpdateCurrentTurnF at h
  rcases hn : nextFault fs with ⟨f, fs'⟩
  rw [hn] at h
  simp only at h
  split at h
  · simp only [Prod.mk.injEq, Option.some.injEq] at h
    exact h.1.symm
  · simp at h

theorem joinGameStoreF_some {u : Int} {un : String} {po : Int} {fs : FStore}
    {e : EngineError} {fs2 : FStore}
    (h : JoinGameStoreF u un po fs = (some e, fs2)) : e = .storeFault := by
  unfold JoinGameStoreF at h
  rcases hn : nextFault fs with ⟨f, fs'⟩
  rw [hn] at h
  simp only at h
  split at h
  · simp only [Prod.mk.injEq, Option.some.injEq] at h
    exact h.1.symm
  · simp at h

theorem joinGameF_validation {gameID userID : Int} {un : String} {fs : FStore}
    {e : EngineError} {fs1 : FStore}
    (h : JoinGameF gameID userID un fs = (.fail e, fs1))
    (hne : e ≠ .storeFault) : fs1.s = fs.s := by
  unfold JoinGameF at h
  split at h
  · rename_i e2 fs2 heq
    simp only [Prod.mk.injEq, EResult.fail.injEq] at h
    rw [← h.2]
    have := getGameStateF_s gameID fs
    rw [heq] at this
    exact this
  · simp at h
  · rename_i st fs2 heq
    have hs2 : fs2.s = fs.s := by
      have := getGameStateF_s gameID fs
      rw [heq] at this
      exact this
    split at h
    · simp only [Prod.mk.injEq, EResult.fail.injEq] at h
      rw [← h.2]
      exact hs2
    · split at h
      · simp only [Prod.mk.injEq, EResult.fail.injEq] at h
        rw [← h.2]
        exact hs2
      · split at h
        · simp only [Prod.mk.injEq, EResult.fail.injEq] at h
          rw [← h.2]
          exact hs2
        · simp only [] at h
          split at h
          · rename_i e3 fs3 heq3
            simp only [Prod.mk.injEq, EResult.fail.injEq] at h
            exact absurd (h.1 ▸ joinGameStoreF_some heq3) hne
          · simp at h

theorem setReadyF_validation {gameID userID : Int} {b : Bool} {fs : FStore}
    {e : EngineError} {fs1 : FStore}
    (h : SetReadyF gameID userID b fs = (.fail e, fs1))
    (hne : e ≠ .storeFault) : fs1.s = fs.s := by
  unfold SetReadyF at h
  split at h
  · rename_i e2 fs2 heq
    simp only [Prod.mk.injEq, EResult.fail.injEq] at h
    rw [← h.2]
    have := getGameStateF_s gameID fs
    rw [heq] at this
    exact this
  · simp at h
  · rename_i st fs2 heq
    obtain ⟨hpos, hs2, g, hgame⟩ := getGameStateF_ok heq
    split at h
    · simp only [Prod.mk.injEq, EResult.fail.injEq] at h
      rw [← h.2]
      exact hs2
    · split at h
      · simp only [Prod.mk.injEq, EResult.fail.injEq] at h
        rw [← h.2]
        exact hs2
      · split at h
        · rename_i e3 fs3 heq3
          simp only [Prod.mk.injEq, EResult.fail.injEq] at h
          exact absurd (h.1 ▸ updatePlayerReadyF_some heq3) hne
        · rename_i fs3 heq3
          have hs3 : fs3.s = Store.UpdatePlayerReady userID b fs2.s :=
            updatePlayerReadyF_none heq3
          have hg3 : fs3.s.game = some g := by
            rw [hs3, updatePlayerReady_game, hs2, hgame]
          split at h
          · rename_i e4 fs4 heq4
            simp only [Prod.mk.injEq, EResult.fail.injEq] at h
            exact absurd (h.1 ▸ getGameStateF_fail hg3 hpos heq4) hne
          · simp at h
          · split at h
            · split at h
              · rename_i e5 fs5 heq5
                simp only [Prod.mk.injEq, EResult.fail.injEq] at h
                exact absurd (h.1 ▸ updateGameStatusF_some heq5) hne
              · split at h
                · simp at h
                · split at h
                  · rename_i e6 fs6 heq6
                    simp only [Prod.mk.injEq, EResult.fail.injEq] at h
                    exact absurd (h.1 ▸ updateCurrentTurnF_some heq6) hne
                  · simp at h
            · simp at h

theorem endTurnF_validation {gameID userID : Int} {fs : FStore}
    {e : EngineError} {fs1 : FStore}
    (h : EndTurnF gameID userID fs = (.fail e, fs1))
    (hne : e ≠ .storeFault) : fs1.s = fs.s := by
  unfold EndTurnF at h
  split at h
  · rename_i e2 fs2 heq
    simp only [Prod.mk.injEq, EResult.fail.injEq] at h
    rw [← h.2]
    have := getGameStateF_s gameID fs
    rw [heq] at this
    exact this
  · simp at h
  · rename_i st fs2 heq
    have hs2 : fs2.s = fs.s := by
      have := getGameStateF_s gameID fs
      rw [heq] at this
      exact this
    split at h
    · simp only [Prod.mk.injEq, EResult.fail.injEq] at h
      rw [← h.2]
      exact hs2
    · split at h
      · simp only [Prod.mk.injEq, EResult.fail.injEq] at h
        rw [← h.2]
        exact hs2
      · split at h
        · split at h
          · simp at h
          · simp only [] at h
            split at h
            · rename_i e3 fs3 heq3
              simp only [Prod.mk.injEq, EResult.fail.injEq] at h
              exact absurd (h.1 ▸ updateCurrentTurnF_some heq3) hne
            · simp at h
        · split at h
          · simp at h
          · simp only [] at h
            split at h
            · rename_i e3 fs3 heq3
              simp only [Prod.mk.injEq, EResult.fail.injEq] at h
              exact absurd (h.1 ▸ updateCurrentTurnF_some heq3) hne
            · simp at h

/-- The waiting session with alice ready, together with a fault schedule
whose seventh store call (UpdateCurrentTurn, after UpdateGameStatus has
already committed) fails. -/
def exFaulty : FStore :=
  { s := exWaiting,
    faults := [false, false, false, false, false, false, true] }

/-- Claim C5 counterexample: bob readying up triggers the start transition;
UpdateGameStatus commits but UpdateCurrentTurn faults, and the call returns
an error while the store is changed — the status is already in_progress with
no turn assigned, so the error did not leave the store unchanged. -/
theorem claim5_counterexample :
    ∃ fs1, SetReadyF 1 2 true exFaulty = (.fail .storeFault, fs1) ∧
      fs1.s ≠ exFaulty.s ∧
      fs1.s.game = some { id := 1, status := StatusInProgress, maxPlayers := 4 } ∧
      turnCount fs1.s.rows = 0 :=
  ⟨_, rfl, by decide, rfl, rfl⟩

/-- Claim C5 as amended: an engine operation that returns a validation
rejection (any error other than a store fault) leaves the store unchanged,
for JoinGame, SetReady and EndTurn alike; only store-level faults can leave
partial state committed. -/
theorem claim5_validation_errors_no_mutation (gameID userID : Int)
    (un : String) (b : Bool) (fs : FStore) (e : EngineError) (fs1 : FStore)
    (hne : e ≠ .storeFault) :
    (JoinGameF gameID userID un fs = (.fail e, fs1) → fs1.s = fs.s) ∧
    (SetReadyF gameID userID b fs = (.fail e, fs1) → fs1.s = fs.s) ∧
    (EndTurnF gameID userID fs = (.fail e, fs1) → fs1.s = fs.s) :=
  ⟨fun h => joinGameF_validation h hne,
   fun h => setReadyF_validation h hne,
   fun h => endTurnF_validation h hne⟩

/-- Witness for C5 as amended: joining as a user already in the session is
rejected and leaves the store of the fixture untouched. -/
theorem claim5_witness :
    (JoinGameF 1 1 "alice" { s := exWaiting, faults := [] }).2.s = exWaiting :=
  (claim5_validation_errors_no_mutation 1 1 "alice" true
    { s := exWaiting, faults := [] } .alreadyInGame
    (JoinGameF 1 1 "alice" { s := exWaiting, faults := [] }).2
    (by decide)).1 (by decide)

end Monopoly
